import Mathlib

/-!
Verification of the Context Analysis & Agent Orchestration subsystem of the
DevMind extension (TypeScript sources under `src/`).  The definitions below
are a shallow embedding, translated from the TypeScript sources:

* `src/core/PrivacyManager.ts`   — privacy modes, sensitive-data regexes,
  exclusion lists, `canProcessContext` / `canProcessRequest`;
* `src/core/ContextAnalyzer.ts`  — `ContextData` and `calculateComplexity`;
* `src/agents/BugHunterAgent.ts` — `execute` status bookkeeping and
  `parseDebuggingResponse`;
* `src/agents/AgentOrchestrator.ts` — `executeAgent`, `executeAgentChain`,
  `getAllAgentSuggestions`;
* the `AuditTrail` class (imported from `src/core/AuditTrail`, its
  implementation concatenated into `src/llm/QwenLLMProvider.ts`) —
  `logAgentExecution` and its `enabled` guard.

JavaScript strings are modelled as `List Char`; JavaScript `number` is
modelled as `Nat` where the sources only count, and as `Rat` where the
sources do fractional arithmetic (confidence scores, rolling averages).
JavaScript regular expressions compiled with the `g` flag are stateful
(`lastIndex` survives across `test` calls); that statefulness is modelled
explicitly by threading a `Nat` state per pattern.
-/

namespace DevMind

/-! ## JavaScript string primitives -/

/-- JS `\s` (the whitespace characters relevant to this code base). -/
def isSpaceJS (c : Char) : Bool :=
  c = ' ' || c = '\t' || c = '\n' || c = '\r' ||
  c = Char.ofNat 11 || c = Char.ofNat 12 || c = Char.ofNat 160

/-- JS `\w`: ASCII letters, digits and underscore. -/
def isWordC (c : Char) : Bool :=
  c.isAlphanum || c = '_'

/-- JS `String.prototype.toLowerCase` (ASCII fragment, which is all the
sources feed it). -/
def lowerL (s : List Char) : List Char := s.map Char.toLower

/-- `a` starts with `b` (JS `startsWith` on char lists). -/
def startsWithL : List Char → List Char → Bool
  | _, [] => true
  | [], _ :: _ => false
  | a :: as, b :: bs => a = b && startsWithL as bs

/-- JS `String.prototype.includes` (substring test). -/
def containsSub : List Char → List Char → Bool
  | s, pat =>
    if startsWithL s pat then true
    else match s with
      | [] => false
      | _ :: rest => containsSub rest pat

/-- `a` ends with `b` (JS `endsWith`). -/
def endsWithL (a b : List Char) : Bool := startsWithL a.reverse b.reverse

/-- JS `String.prototype.trim`. -/
def trimL (s : List Char) : List Char :=
  ((s.dropWhile isSpaceJS).reverse.dropWhile isSpaceJS).reverse

/-- String wrapper for `lowerL`. -/
def lowerS (s : String) : String := ⟨lowerL s.toList⟩

/-- String wrapper for `containsSub`. -/
def containsS (s pat : String) : Bool := containsSub s.toList pat.toList

/-- String wrapper for `trimL`. -/
def trimS (s : String) : String := ⟨trimL s.toList⟩

/-- String wrapper for `startsWithL`. -/
def startsWithS (s pat : String) : Bool := startsWithL s.toList pat.toList

/-- String wrapper for `endsWithL`. -/
def endsWithS (s pat : String) : Bool := endsWithL s.toList pat.toList

/-! ## A small regular-expression engine

`src/core/PrivacyManager.ts` keeps ten compiled regular expressions
(`initializeSensitivePatterns`).  The abstract syntax below covers exactly
the constructs those ten patterns use: single-character classes,
concatenation, alternation, the empty pattern, the `\b` word-boundary
assertion, and greedy counted repetition (`?`, `+`, `{n}`, `{n,}`,
`{n,m}`).  The matcher reproduces the backtracking priority order of the
JavaScript engine: a repetition prefers more iterations, an alternation
prefers its left branch, and `exec`/`test` return the leftmost match whose
start position is at least `lastIndex`. -/

inductive RE where
  | cls (p : Char → Bool)
  | eps
  | wordB
  | seq (a b : RE)
  | alt (a b : RE)
  | rep (r : RE) (lo : Nat) (hi : Option Nat)

/-- Is position `j` of `text` occupied by a word character?  Out-of-range
positions count as non-word, as in JS. -/
def wordAt (text : List Char) (j : Nat) : Bool :=
  match text.get? j with
  | some c => isWordC c
  | none => false

/-- JS `\b`: the word-ness of the characters on either side of position `i`
differs. -/
def isBoundary (text : List Char) (i : Nat) : Bool :=
  (decide (0 < i) && wordAt text (i - 1)) != wordAt text i

/-- Decrement an optional repetition bound. -/
def decMax : Option Nat → Option Nat
  | none => none
  | some m => some (m - 1)

/-- Greedy counted repetition of a single step function (`step i` is the
list of end positions of one instance of the repeated pattern from `i`, in
priority order).  `fuel` bounds the unrollings; each unrolling consumes at
least one character (the `filter`), so `text.length + 1` fuel is always
enough. -/
def repEnds (step : Nat → List Nat) : Nat → Nat → Option Nat → Nat → List Nat
  | 0, lo, _, i => if lo = 0 then [i] else []
  | fuel + 1, lo, hi, i =>
    match hi with
    | some 0 => if lo = 0 then [i] else []
    | _ =>
      let once := (step i).filter (fun j => i < j)
      let deeper := once.flatMap (repEnds step fuel (lo - 1) (decMax hi))
      if lo = 0 then deeper ++ [i] else deeper

/-- All end positions of a match of `r` starting at position `i` of `text`,
in backtracking priority order (the JS engine commits to the first one its
continuation accepts; `test` only needs the head). -/
def ends (text : List Char) : RE → Nat → List Nat
  | .cls p, i =>
    match text.get? i with
    | some c => if p c then [i + 1] else []
    | none => []
  | .eps, i => [i]
  | .wordB, i => if isBoundary text i then [i] else []
  | .seq a b, i => (ends text a i).flatMap (ends text b)
  | .alt a b, i => ends text a i ++ ends text b i
  | .rep r lo hi, i => repEnds (ends text r) (text.length + 1) lo hi i

/-- Leftmost-match search from `start`, bounded by fuel (the caller passes
`text.length + 1`, enough to scan every remaining start position). -/
def findFromAux (text : List Char) (r : RE) : Nat → Nat → Option (Nat × Nat)
  | 0, _ => none
  | fuel + 1, start =>
    if start ≤ text.length then
      match (ends text r start).head? with
      | some e => some (start, e)
      | none => findFromAux text r fuel (start + 1)
    else none

/-- Leftmost match of `r` in `text` with start position at least `start`:
returns the match start together with the end position chosen by the
backtracking engine. -/
def findFrom (text : List Char) (r : RE) (start : Nat) : Option (Nat × Nat) :=
  findFromAux text r (text.length + 1) start

/-- JS `RegExp.prototype.test` for a `g`-flagged regex: matching begins at
`lastIndex`; on success `lastIndex` becomes the match end, on failure it is
reset to `0`. -/
def gTest (r : RE) (text : List Char) (lastIndex : Nat) : Bool × Nat :=
  if lastIndex ≤ text.length then
    match findFrom text r lastIndex with
    | some (_, e) => (true, e)
    | none => (false, 0)
  else (false, 0)

/-- The number of matches reported by JS `String.prototype.match` for a
`g`-flagged regex: repeated `exec` from `lastIndex = 0`; after an empty
match the index advances by one to guarantee progress (ECMA-262
`AdvanceStringIndex`).  Every step advances the index, so
`text.length + 2` iterations always suffice for the fuel. -/
def matchAllCountAux (r : RE) (text : List Char) : Nat → Nat → Nat
  | 0, _ => 0
  | fuel + 1, i =>
    match findFrom text r i with
    | none => 0
    | some (s, e) =>
      1 + matchAllCountAux r text fuel (if e = s then e + 1 else e)

/-- `text.match(r).length`, with `0` for a `null` result. -/
def matchAllCount (r : RE) (text : List Char) : Nat :=
  matchAllCountAux r text (text.length + 2) 0

/-! Convenience constructors used to transcribe the source regexes. -/

/-- One case-sensitive character. -/
def chr (c : Char) : RE := .cls (fun x => x = c)

/-- One case-insensitive character (for `i`-flagged patterns). -/
def chrCI (c : Char) : RE := .cls (fun x => x.toLower = c.toLower)

/-- A case-insensitive literal word. -/
def strCI (s : String) : RE :=
  s.toList.foldr (fun c acc => .seq (chrCI c) acc) .eps

/-- `r?` (greedy). -/
def opt (r : RE) : RE := .rep r 0 (some 1)

/-- `r+` (greedy). -/
def plus (r : RE) : RE := .rep r 1 none

/-- `r{n}`. -/
def repEq (n : Nat) (r : RE) : RE := .rep r n (some n)

/-- `r{n,}` (greedy). -/
def repGE (n : Nat) (r : RE) : RE := .rep r n none

/-- Single quote and double quote, written via code points. -/
def isQuoteC (c : Char) : Bool := c = Char.ofNat 39 || c = Char.ofNat 34

/-- The class `[\s:=]` used by the assignment-shaped patterns. -/
def isSepC (c : Char) : Bool := isSpaceJS c || c = ':' || c = '='

/-- The class `[\w-]`. -/
def isWordDash (c : Char) : Bool := isWordC c || c = '-'

/-- Concatenation of a list of patterns. -/
def seqs (rs : List RE) : RE := rs.foldr .seq .eps

/-! ## The ten sensitive-data patterns

Transcribed one-for-one from `initializeSensitivePatterns` in
`src/core/PrivacyManager.ts`.  All ten are compiled with the `g` flag;
patterns 2–8 additionally carry the `i` flag.  Capture groups have no
effect on `test` and are transcribed as plain subpatterns. -/

/-- Pattern 1: generic API key, `\b[A-Za-z0-9-_]{24,}\b` (`g`). -/
def reApiKeyGeneric : RE :=
  seqs [.wordB, repGE 24 (.cls isWordDash), .wordB]

/-- The suffix `[\s:=]+['"]?([\w-]+)['"]?` shared by the assignment-shaped
patterns 2–4. -/
def reAssignTailWord : RE :=
  seqs [plus (.cls isSepC), opt (.cls isQuoteC), plus (.cls isWordDash),
        opt (.cls isQuoteC)]

/-- The suffix `[\s:=]+['"]?([^'"\s]+)['"]?` shared by the credential-shaped
patterns 5–7. -/
def reAssignTailNonQuote : RE :=
  seqs [plus (.cls isSepC), opt (.cls isQuoteC),
        plus (.cls (fun c => !(isQuoteC c || isSpaceJS c))),
        opt (.cls isQuoteC)]

/-- Pattern 2: `api[_-]?key[\s:=]+['"]?([\w-]+)['"]?` (`gi`). -/
def reApiKeyAssign : RE :=
  seqs [strCI "api", opt (.cls (fun c => c = '_' || c = '-')), strCI "key",
        reAssignTailWord]

/-- Pattern 3: `token[\s:=]+['"]?([\w-]+)['"]?` (`gi`). -/
def reTokenAssign : RE := .seq (strCI "token") reAssignTailWord

/-- Pattern 4: `secret[\s:=]+['"]?([\w-]+)['"]?` (`gi`). -/
def reSecretAssign : RE := .seq (strCI "secret") reAssignTailWord

/-- Pattern 5: `password[\s:=]+['"]?([^'"\s]+)['"]?` (`gi`). -/
def rePasswordAssign : RE := .seq (strCI "password") reAssignTailNonQuote

/-- Pattern 6: `passwd[\s:=]+['"]?([^'"\s]+)['"]?` (`gi`). -/
def rePasswdAssign : RE := .seq (strCI "passwd") reAssignTailNonQuote

/-- Pattern 7: `credential[\s:=]+['"]?([^'"\s]+)['"]?` (`gi`). -/
def reCredentialAssign : RE := .seq (strCI "credential") reAssignTailNonQuote

/-- Pattern 8: email, `\b[A-Z0-9._%+-]+@[A-Z0-9.-]+\.[A-Z]{2,}\b` (`gi`). -/
def reEmail : RE :=
  seqs [.wordB,
        plus (.cls (fun c => c.isAlphanum || c = '.' || c = '_' || c = '%' ||
                             c = '+' || c = '-')),
        chr '@',
        plus (.cls (fun c => c.isAlphanum || c = '.' || c = '-')),
        chr '.', repGE 2 (.cls Char.isAlpha), .wordB]

/-- Pattern 9: SSN, `\b(?:\d{3}-\d{2}-\d{4}|\d{9})\b` (`g`). -/
def reSSN : RE :=
  seqs [.wordB,
        .alt (seqs [repEq 3 (.cls Char.isDigit), chr '-',
                    repEq 2 (.cls Char.isDigit), chr '-',
                    repEq 4 (.cls Char.isDigit)])
             (repEq 9 (.cls Char.isDigit)),
        .wordB]

/-- Pattern 10: credit card, `\b(?:\d{4}[- ]?){3}\d{4}\b` (`g`). -/
def reCreditCard : RE :=
  seqs [.wordB,
        repEq 3 (.seq (repEq 4 (.cls Char.isDigit))
                      (opt (.cls (fun c => c = '-' || c = ' ')))),
        repEq 4 (.cls Char.isDigit), .wordB]

/-- The pattern list in source order (`initializeSensitivePatterns`). -/
def sensitivePatterns : List RE :=
  [reApiKeyGeneric, reApiKeyAssign, reTokenAssign, reSecretAssign,
   rePasswordAssign, rePasswdAssign, reCredentialAssign,
   reEmail, reSSN, reCreditCard]

/-! ## PrivacyManager -/

/-- The three privacy modes (`PrivacyMode` in `src/core/PrivacyManager.ts`). -/
inductive PrivacyMode where
  | standard
  | enhanced
  | maximum
deriving DecidableEq

/-- Strictness rank of a mode: the spec orders the three modes by
increasing strictness. -/
def PrivacyMode.strictness : PrivacyMode → Nat
  | .standard => 0
  | .enhanced => 1
  | .maximum => 2

/-- The mutable state of a `PrivacyManager` instance: the mode, the two
exclusion lists, and one `lastIndex` per compiled `g`-flagged pattern. -/
structure PMState where
  mode : PrivacyMode
  excludedFiles : List String
  excludedDirectories : List String
  patternStates : List Nat
deriving DecidableEq

/-- `Array.prototype.some(p => p.test(text))` over the stateful patterns:
patterns are tried in order, stopping at the first success; a pattern that
is never reached keeps its previous `lastIndex`. -/
def someTest (text : List Char) : List RE → List Nat → Bool × List Nat
  | [], _ => (false, [])
  | _ :: _, [] => (false, [])
  | p :: ps, s :: ss =>
    let (b, s1) := gTest p text s
    if b then (true, s1 :: ss)
    else
      let (b2, ss2) := someTest text ps ss
      (b2, s1 :: ss2)

/-- `containsSensitiveData` from `src/core/PrivacyManager.ts`, with the
regex `lastIndex` statefulness made explicit: returns the boolean together
with the updated per-pattern states. -/
def containsSensitiveData (states : List Nat) (text : String) :
    Bool × List Nat :=
  someTest text.toList sensitivePatterns states

/-- `isExcludedFile`: directly listed, or under an excluded directory
prefix (`filePath.startsWith(dir)`). -/
def isExcludedFile (pm : PMState) (filePath : String) : Bool :=
  if pm.excludedFiles.contains filePath then true
  else pm.excludedDirectories.any (fun dir => startsWithS filePath dir)

/-! ## ContextData (`src/core/ContextAnalyzer.ts`)

Every field of the TypeScript interface is optional; the fields embedded
here are the ones the verified operations read.  `content` of a config
file (typed `any` in the source) is not read by any embedded operation and
is omitted. -/

/-- `FileInfo`. -/
structure FileInfo where
  path : String
  size : Nat
  type : String
deriving DecidableEq

/-- `ProjectStructure`. -/
structure ProjectStructure where
  directories : List String
  files : List FileInfo
  entryPoints : List String
  testFiles : List String
  configFiles : List String
deriving DecidableEq

/-- `ConfigFile` (the `content : any` field is never read by the embedded
operations). -/
structure ConfigFile where
  path : String
  type : String
deriving DecidableEq

/-- `CommitInfo`. -/
structure CommitInfo where
  hash : String
  message : String
  author : String
deriving DecidableEq

/-- `GitContext`. -/
structure GitContext where
  currentBranch : String
  recentCommits : List CommitInfo
  uncommittedChanges : List String
deriving DecidableEq

/-- The slice of `ContextData` read by the verified operations.  A `none`
models an absent (`undefined`) field. -/
structure ContextData where
  currentFile : Option String := none
  currentFunction : Option String := none
  currentClass : Option String := none
  selectedText : Option String := none
  surroundingCode : Option String := none
  projectStructure : Option ProjectStructure := none
  configFiles : Option (List ConfigFile) := none
  architecturalPatterns : Option (List String) := none
  gitHistory : Option GitContext := none
  hasErrors : Option Bool := none
  hasWarnings : Option Bool := none
  missingDocumentation : Option Bool := none
  hasGitChanges : Option Bool := none
  isConfigFile : Option Bool := none
  isArchitecturalFile : Option Bool := none
  complexity : Option Nat := none
  language : Option String := none
  projectName : Option String := none
  errorMessages : Option (List String) := none
deriving DecidableEq

/-- JS truthiness of an optional boolean field (`undefined` is falsy). -/
def truthy (o : Option Bool) : Bool := o.getD false

/-- JS truthiness of an optional string field (`undefined` and `""` are
falsy). -/
def truthyS (o : Option String) : Bool :=
  match o with
  | some s => !(s = "")
  | none => false

/-! ## canProcessContext / canProcessRequest

Translated from `src/core/PrivacyManager.ts`.  Both return the boolean the
source returns, paired with the `PMState` after the call: the mode and the
exclusion lists are never written by these functions, but the `g`-flagged
patterns update their `lastIndex` whenever `containsSensitiveData` runs. -/

/-- `canProcessContext(context)`. -/
def canProcessContext (pm : PMState) (ctx : ContextData) : Bool × PMState :=
  if pm.mode = .standard then (true, pm)
  else
    -- `if (context.currentFile && this.isExcludedFile(context.currentFile))`
    if (match ctx.currentFile with
        | some f => !(f = "") && isExcludedFile pm f
        | none => false) then (false, pm)
    else
      -- `if (context.surroundingCode && this.containsSensitiveData(...))`
      match ctx.surroundingCode with
      | some code =>
        if code = "" then canProcessContextMaxChecks pm ctx
        else
          let (hit, states) := containsSensitiveData pm.patternStates code
          let pm1 := { pm with patternStates := states }
          if hit then (false, pm1)
          else canProcessContextMaxChecks pm1 ctx
      | none => canProcessContextMaxChecks pm ctx
where
  /-- The additional `MAXIMUM`-mode filename checks at the end of
  `canProcessContext`. -/
  canProcessContextMaxChecks (pm : PMState) (ctx : ContextData) :
      Bool × PMState :=
    if pm.mode = .maximum then
      match ctx.currentFile with
      | some f =>
        if f = "" then (true, pm)
        else
          let lower := lowerS f
          if containsS lower "secret" || containsS lower "password" ||
             containsS lower "credential" || endsWithS lower ".env" then
            (false, pm)
          else (true, pm)
      | none => (true, pm)
    else (true, pm)

/-- The slice of a request object read by `canProcessRequest`. -/
structure RequestData where
  prompt : Option String := none
  contextCurrentFile : Option String := none
deriving DecidableEq

/-- `calculateComplexity` keyword list from `src/core/ContextAnalyzer.ts`. -/
def complexityKeywords : List String :=
  ["if", "else", "while", "for", "switch", "case", "catch", "&&", "||"]

/-- The regex `new RegExp("\b" + keyword + "\b", "g")` built by
`calculateComplexity`, compiled by hand for each of the nine keywords.
For every keyword except `||` the result is boundary–literal–boundary
(`&` is not a regex metacharacter).  For `||`, however, the unescaped `|`
is the alternation operator, so the source string `\b||\b` parses as the
three-way alternation of `\b`, the empty pattern, and `\b` — a pattern
that matches the empty string at every position of the text. -/
def kwPattern (kw : String) : RE :=
  if kw = "||" then .alt (.alt .wordB .eps) .wordB
  else seqs [.wordB, seqs (kw.toList.map chr), .wordB]

/-- `calculateComplexity` from `src/core/ContextAnalyzer.ts`: base 1, plus
the number of `match` results of `\b<keyword>\b` for each keyword. -/
def calculateComplexity (text : String) : Nat :=
  complexityKeywords.foldl
    (fun acc kw => acc + matchAllCount (kwPattern kw) text.toList) 1

/-- `kw` occurs at position `i` of `text` with a word boundary on each
side (the "whole-word occurrence" of the specification). -/
def boundedAt (kw text : List Char) (i : Nat) : Bool :=
  startsWithL (text.drop i) kw && isBoundary text i &&
  isBoundary text (i + kw.length)

/-- Number of whole-word occurrences of `kw` in `text`. -/
def wholeWordCount (kw text : List Char) : Nat :=
  (List.range (text.length + 1)).countP (fun i => boundedAt kw text i)

/-- The complexity value the specification describes: 1 plus the number of
whole-word occurrences of each keyword of the fixed set.  (Stated from the
spec wording, for comparison with `calculateComplexity`.) -/
def specWholeWordComplexity (text : String) : Nat :=
  complexityKeywords.foldl
    (fun acc kw => acc + wholeWordCount kw.toList text.toList) 1

/-- `canProcessRequest(request)`. -/
def canProcessRequest (pm : PMState) (req : RequestData) : Bool × PMState :=
  if pm.mode = .standard then (true, pm)
  else
    -- `if (request.prompt && this.containsSensitiveData(request.prompt))`
    match req.prompt with
    | some p =>
      if p = "" then canProcessRequestMaxCheck pm req
      else
        let (hit, states) := containsSensitiveData pm.patternStates p
        let pm1 := { pm with patternStates := states }
        if hit then (false, pm1)
        else canProcessRequestMaxCheck pm1 req
    | none => canProcessRequestMaxCheck pm req
where
  /-- The `MAXIMUM`-mode excluded-file check at the end of
  `canProcessRequest`. -/
  canProcessRequestMaxCheck (pm : PMState) (req : RequestData) :
      Bool × PMState :=
    if pm.mode = .maximum then
      match req.contextCurrentFile with
      | some f =>
        if f = "" then (true, pm)
        else if isExcludedFile pm f then (false, pm) else (true, pm)
      | none => (true, pm)
    else (true, pm)

/-! ## A reference model for the exclusion-list getters

`getExcludedFiles` / `getExcludedDirectories` return `[...this.list]`, a
fresh array whose elements are copied.  JavaScript arrays are heap
references, so the frame property (mutating the returned array does not
touch the manager's own array) is stated over an explicit store of
string-array cells: the manager holds references into the store and each
getter allocates a fresh cell. -/

/-- A heap of string-array cells, addressed by index. -/
structure Store where
  cells : List (List String)
deriving DecidableEq

/-- Dereference (out-of-range reads the empty array; allocation below
keeps every reference in range). -/
def Store.read (st : Store) (r : Nat) : List String := st.cells.getD r []

/-- Allocate a fresh cell holding `xs`; returns the new reference. -/
def Store.alloc (st : Store) (xs : List String) : Nat × Store :=
  (st.cells.length, ⟨st.cells ++ [xs]⟩)

/-- In-place mutation of the cell `r` (what a caller does to an array it
was handed). -/
def Store.write (st : Store) (r : Nat) (xs : List String) : Store :=
  ⟨st.cells.set r xs⟩

/-- A `PrivacyManager` whose two exclusion lists live in the store. -/
structure PMHeap where
  mode : PrivacyMode
  filesRef : Nat
  dirsRef : Nat
  patternStates : List Nat
deriving DecidableEq

/-- The manager's references are live cells of the store. -/
def PMHeap.wf (pm : PMHeap) (st : Store) : Prop :=
  pm.filesRef < st.cells.length ∧ pm.dirsRef < st.cells.length

/-- The pure `PMState` a heap-resident manager denotes: the evaluation
functions read the lists through the references. -/
def PMHeap.val (pm : PMHeap) (st : Store) : PMState :=
  ⟨pm.mode, st.read pm.filesRef, st.read pm.dirsRef, pm.patternStates⟩

/-- `getExcludedFiles(): return [...this.excludedFiles]` — allocates a
fresh array containing a copy of the internal list. -/
def getExcludedFiles (pm : PMHeap) (st : Store) : Nat × Store :=
  st.alloc (st.read pm.filesRef)

/-- `getExcludedDirectories(): return [...this.excludedDirectories]`. -/
def getExcludedDirectories (pm : PMHeap) (st : Store) : Nat × Store :=
  st.alloc (st.read pm.dirsRef)

/-! ## Agent types (`src/agents/types.ts` declarations, reconstructed from
their uses across the agent sources) -/

/-- The six agent identifiers registered by
`AgentOrchestrator.initializeAgents`. -/
inductive AgentType where
  | architect
  | codesmith
  | bughunter
  | docguru
  | gitmate
  | devflow
deriving DecidableEq

/-- Severity levels produced by `determineSeverity`. -/
inductive Severity where
  | info
  | warning
  | error
  | critical
deriving DecidableEq

/-- `AnalysisResult` as built by `parseDebuggingResponse` (the
`description` stays absent when no description line followed the marker;
the source casts the partial record with `as AnalysisResult`). -/
structure AnalysisResult where
  category : String
  severity : Severity
  title : String
  description : Option String
deriving DecidableEq

/-- `CodeChange` as built by `parseDebuggingResponse` (`filePath` comes
from `context.currentFile!`, which is absent when the context has no
current file). -/
structure CodeChange where
  type : String
  filePath : Option String
  description : String
  confidence : Rat
  newText : String
deriving DecidableEq

/-- `Alternative`. -/
structure Alternative where
  title : String
  description : String
  pros : List String
  cons : List String
  complexity : String
  timeEstimate : String
deriving DecidableEq

/-- `AgentResult`.  Optional fields are `none` when a code path does not
set them. -/
structure AgentResult where
  success : Bool
  agentType : AgentType
  executionTime : Nat
  error : Option String := none
  message : Option String := none
  suggestions : Option (List String) := none
  codeChanges : Option (List CodeChange) := none
  analysisResults : Option (List AnalysisResult) := none
  alternatives : Option (List Alternative) := none
  confidence : Option Rat := none
  reasoning : Option String := none
  nextSteps : Option (List String) := none
  contextUpdates : Option ContextData := none
deriving DecidableEq

/-- Object-spread merge `{...ctx, ...updates}` where `updates` is a
`Partial<ContextData>`: a field present in `updates` overrides the one in
`ctx`. -/
def mergeContext (ctx updates : ContextData) : ContextData where
  currentFile := updates.currentFile <|> ctx.currentFile
  currentFunction := updates.currentFunction <|> ctx.currentFunction
  currentClass := updates.currentClass <|> ctx.currentClass
  selectedText := updates.selectedText <|> ctx.selectedText
  surroundingCode := updates.surroundingCode <|> ctx.surroundingCode
  projectStructure := updates.projectStructure <|> ctx.projectStructure
  configFiles := updates.configFiles <|> ctx.configFiles
  architecturalPatterns :=
    updates.architecturalPatterns <|> ctx.architecturalPatterns
  gitHistory := updates.gitHistory <|> ctx.gitHistory
  hasErrors := updates.hasErrors <|> ctx.hasErrors
  hasWarnings := updates.hasWarnings <|> ctx.hasWarnings
  missingDocumentation :=
    updates.missingDocumentation <|> ctx.missingDocumentation
  hasGitChanges := updates.hasGitChanges <|> ctx.hasGitChanges
  isConfigFile := updates.isConfigFile <|> ctx.isConfigFile
  isArchitecturalFile := updates.isArchitecturalFile <|> ctx.isArchitecturalFile
  complexity := updates.complexity <|> ctx.complexity
  language := updates.language <|> ctx.language
  projectName := updates.projectName <|> ctx.projectName
  errorMessages := updates.errorMessages <|> ctx.errorMessages

/-! ## BugHunterAgent (`src/agents/BugHunterAgent.ts`) -/

/-- `AgentStatus` (the BugHunter instance field `status`).
`lastExecution : Date` is modelled as an optional timestamp. -/
structure AgentStatus where
  isReady : Bool := true
  isExecuting : Bool := false
  errorCount : Nat := 0
  successCount : Nat := 0
  averageExecutionTime : Rat := 0
  currentTask : Option String := none
  lastExecution : Option Nat := none
deriving DecidableEq

/-- `updateAverageExecutionTime`: called after the success counter has
been incremented; `totalExecutions` is the sum of both counters. -/
def updateAverageExecutionTime (st : AgentStatus) (executionTime : Rat) :
    AgentStatus :=
  let totalExecutions : Rat := (st.successCount : Rat) + (st.errorCount : Rat)
  { st with
    averageExecutionTime :=
      (st.averageExecutionTime * (totalExecutions - 1) + executionTime) /
        totalExecutions }

/-- Outcome of the dispatched analysis body inside `execute`’s `try`
block: the selected `analyze…` helper either returns an `AgentResult` or
throws an `Error` with the given message. -/
inductive BodyOutcome where
  | returns (r : AgentResult)
  | throws (msg : String)
deriving DecidableEq

/-- `BugHunterAgent.execute`, with the wall clock abstracted into the
start time and the duration of the body.  Reproduces the
`try`/`catch`/`finally` structure: the success path bumps `successCount`
and recomputes the rolling average; the catch path bumps `errorCount`
only; the `finally` block clears `isExecuting` and `currentTask` and
stamps `lastExecution` on every exit path. -/
def executeStep (st : AgentStatus) (outcome : BodyOutcome)
    (startTime dur : Nat) : AgentResult × AgentStatus :=
  let st1 := { st with isExecuting := true,
                       currentTask := some "Analyzing bugs" }
  let finallyBlock := fun (s : AgentStatus) =>
    { s with isExecuting := false, currentTask := none,
             lastExecution := some (startTime + dur) }
  match outcome with
  | .returns r =>
    let st2 := { st1 with successCount := st1.successCount + 1 }
    let st3 := updateAverageExecutionTime st2 (dur : Rat)
    ({ r with executionTime := dur }, finallyBlock st3)
  | .throws msg =>
    let st2 := { st1 with errorCount := st1.errorCount + 1 }
    ({ success := false, agentType := .bughunter, executionTime := dur,
       error := some msg }, finallyBlock st2)

/-- `mapDebugTypeToCategory`. -/
def mapDebugTypeToCategory (debugType : String) : String :=
  if debugType = "runtime_error" || debugType = "logic_error" ||
     debugType = "type_error" then "bug"
  else if debugType = "performance_issue" then "performance"
  else if debugType = "memory_leak" then "memory"
  else if debugType = "async_issue" then "concurrency"
  else if debugType = "security_vulnerability" then "security"
  else if debugType = "integration_issue" then "integration"
  else "general"

/-- `determineSeverity`: keyword scan of the (lower-cased) marker line. -/
def determineSeverity (text : String) : Severity :=
  let lowerText := lowerS text
  if containsS lowerText "critical" || containsS lowerText "severe" ||
     containsS lowerText "security" then .critical
  else if containsS lowerText "error" || containsS lowerText "major" ||
          containsS lowerText "crash" then .error
  else if containsS lowerText "warning" || containsS lowerText "minor" ||
          containsS lowerText "performance" then .warning
  else .info

/-- The issue-marker test of `parseDebuggingResponse`:
`trimmedLine.toLowerCase().includes('issue:') || …('bug:') || …('problem:')`. -/
def isIssueMarkerLine (t : String) : Bool :=
  containsS (lowerS t) "issue:" || containsS (lowerS t) "bug:" ||
  containsS (lowerS t) "problem:"

/-- The fix-marker test: `…includes('fix:') || …includes('solution:')`. -/
def isFixMarkerLine (t : String) : Bool :=
  containsS (lowerS t) "fix:" || containsS (lowerS t) "solution:"

/-- The code-fence test: `trimmedLine.startsWith('```') &&
trimmedLine.length > 3`. -/
def isFenceLine (t : String) : Bool :=
  startsWithS t "```" && decide (3 < t.length)

/-- `trimmedLine.replace(/^(issue:|bug:|problem:)/i, '')`: strips the
first alternative that matches at the start of the line. -/
def replaceIssueMarkerPrefix (t : String) : String :=
  if startsWithS (lowerS t) "issue:" then ⟨t.toList.drop 6⟩
  else if startsWithS (lowerS t) "bug:" then ⟨t.toList.drop 4⟩
  else if startsWithS (lowerS t) "problem:" then ⟨t.toList.drop 8⟩
  else t

/-- The title stored for an issue line:
`…replace(/^(issue:|bug:|problem:)/i, '').trim()`. -/
def issueTitle (t : String) : String := trimS (replaceIssueMarkerPrefix t)

/-- `trimmedLine.replace(/^(fix:|solution:)/i, '')`. -/
def replaceFixMarkerPrefix (t : String) : String :=
  if startsWithS (lowerS t) "fix:" then ⟨t.toList.drop 4⟩
  else if startsWithS (lowerS t) "solution:" then ⟨t.toList.drop 9⟩
  else t

/-- The suggestion text stored for a fix line. -/
def fixText (t : String) : String := trimS (replaceFixMarkerPrefix t)

/-- The open "current issue" record of the parsing loop.  JavaScript
starts from the empty object `{}` and tests `currentIssue.title` for
truthiness, so an absent (or empty) title marks the record as not open. -/
structure IssueAcc where
  category : String := ""
  severity : Severity := .info
  title : String := ""
  description : Option String := none
deriving DecidableEq

/-- The accumulator of the line loop of `parseDebuggingResponse`:
the three result lists, the open issue record, and whether a code fence
has opened a placeholder `CodeChange` (`currentFix.description` set). -/
structure ParseAcc where
  analysisResults : List AnalysisResult := []
  codeChanges : List CodeChange := []
  suggestions : List String := []
  currentIssue : IssueAcc := {}
  currentFixOpen : Bool := false
deriving DecidableEq

/-- The placeholder `CodeChange` a code fence opens (all its fields are
fixed by the source except the file path, taken from the context). -/
def placeholderFix (ctx : ContextData) : CodeChange :=
  { type := "replace", filePath := ctx.currentFile,
    description := "Bug fix based on analysis", confidence := 0.8,
    newText := "" }

/-- The completed `AnalysisResult` pushed from an open issue record. -/
def IssueAcc.toResult (iss : IssueAcc) : AnalysisResult :=
  ⟨iss.category, iss.severity, iss.title, iss.description⟩

/-- One iteration of the `for (const line of lines)` loop of
`parseDebuggingResponse`. -/
def parseLine (debugType : String) (ctx : ContextData) (acc : ParseAcc)
    (line : String) : ParseAcc :=
  let trimmedLine := trimS line
  if isIssueMarkerLine trimmedLine then
    let acc1 :=
      if !(acc.currentIssue.title = "") then
        { acc with analysisResults :=
            acc.analysisResults ++ [acc.currentIssue.toResult] }
      else acc
    { acc1 with currentIssue :=
        { category := mapDebugTypeToCategory debugType,
          severity := determineSeverity trimmedLine,
          title := issueTitle trimmedLine,
          description := none } }
  else if isFixMarkerLine trimmedLine then
    { acc with suggestions := acc.suggestions ++ [fixText trimmedLine] }
  else if isFenceLine trimmedLine then
    let acc1 :=
      if acc.currentFixOpen then
        { acc with codeChanges := acc.codeChanges ++ [placeholderFix ctx] }
      else acc
    { acc1 with currentFixOpen := true }
  else if !(acc.currentIssue.title = "") &&
          acc.currentIssue.description = none &&
          !(trimmedLine = "") then
    { acc with currentIssue :=
        { acc.currentIssue with description := some trimmedLine } }
  else acc

/-- `calculateDebuggingConfidence`: base 0.7, adjusted by finding count
and debug-type specificity, clamped into `[0.3, 0.95]` via
`Math.max(0.3, Math.min(0.95, confidence))`. -/
def calculateDebuggingConfidence (analysisResults : List AnalysisResult)
    (debugType : String) : Rat :=
  let c : Rat := 0.7
  let c := if 0 < analysisResults.length then c + 0.1 else c
  let c := if 2 < analysisResults.length then c + 0.1 else c
  let c :=
    if debugType = "runtime_error" || debugType = "type_error" then c + 0.1
    else if debugType = "logic_error" || debugType = "performance_issue" then
      c + 0.05
    else if debugType = "security_vulnerability" then c + 0.15
    else c
  max 0.3 (min 0.95 c)

/-- `generateDebuggingNextSteps`. -/
def generateDebuggingNextSteps (debugType : String)
    (analysisResults : List AnalysisResult) : List String :=
  let steps :=
    if 0 < analysisResults.length then
      ["Review identified issues in order of severity"]
    else []
  let steps := steps ++
    (if debugType = "runtime_error" then
      ["Reproduce the error in a controlled environment",
       "Add logging to trace execution flow",
       "Implement error handling"]
    else if debugType = "logic_error" then
      ["Write unit tests to verify expected behavior",
       "Use debugger to step through logic",
       "Add assertions for assumptions"]
    else if debugType = "performance_issue" then
      ["Profile the application to measure impact",
       "Implement performance monitoring",
       "Benchmark before and after optimizations"]
    else if debugType = "memory_leak" then
      ["Use memory profiling tools",
       "Monitor memory usage over time",
       "Implement proper resource cleanup"]
    else if debugType = "async_issue" then
      ["Add proper error handling for async operations",
       "Test with different timing scenarios",
       "Implement timeout mechanisms"]
    else if debugType = "security_vulnerability" then
      ["Prioritize security fixes immediately",
       "Conduct security testing",
       "Update dependencies to secure versions"]
    else [])
  steps ++ ["Test fixes thoroughly", "Update documentation if needed"]

/-- The two fixed alternatives appended when `debugType` is
`performance_issue`. -/
def performanceAlternatives : List Alternative :=
  [{ title := "Quick Performance Fix",
     description := "Apply immediate optimizations with minimal code changes",
     pros := ["Fast implementation", "Low risk", "Immediate improvement"],
     cons := ["Limited impact", "May not address root cause"],
     complexity := "low", timeEstimate := "low" },
   { title := "Comprehensive Optimization",
     description := "Redesign algorithm for optimal performance",
     pros := ["Maximum performance gain", "Long-term solution",
              "Better maintainability"],
     cons := ["Higher complexity", "More testing required",
              "Longer implementation"],
     complexity := "high", timeEstimate := "high" }]

/-- `parseDebuggingResponse` on the already-split list of lines: the line
loop, the trailing flushes, the alternatives, the confidence estimate and
the assembled `AgentResult`. -/
def parseDebuggingLines (lines : List String) (debugType : String)
    (ctx : ContextData) : AgentResult :=
  let acc := lines.foldl (parseLine debugType ctx) {}
  let analysisResults :=
    if !(acc.currentIssue.title = "") then
      acc.analysisResults ++ [acc.currentIssue.toResult]
    else acc.analysisResults
  let codeChanges :=
    if acc.currentFixOpen then acc.codeChanges ++ [placeholderFix ctx]
    else acc.codeChanges
  let alternatives :=
    if debugType = "performance_issue" then performanceAlternatives else []
  let confidence := calculateDebuggingConfidence analysisResults debugType
  { success := true, agentType := .bughunter, executionTime := 0,
    message := some ("Debugging analysis complete. Found " ++
      toString analysisResults.length ++ " issues and " ++
      toString acc.suggestions.length ++ " potential fixes."),
    analysisResults := some analysisResults,
    codeChanges := some codeChanges,
    suggestions := some acc.suggestions,
    alternatives := some alternatives,
    confidence := some confidence,
    reasoning := some ("Performed " ++ debugType ++
      " analysis using contextual debugging techniques"),
    nextSteps := some (generateDebuggingNextSteps debugType analysisResults) }

/-- JS `content.split('\n')` (single-character separator; an empty string
yields `[""]`, like JS). -/
def splitNlAux : List Char → List Char → List String
  | [], acc => [⟨acc.reverse⟩]
  | c :: cs, acc =>
    if c = '\n' then ⟨acc.reverse⟩ :: splitNlAux cs []
    else splitNlAux cs (c :: acc)

/-- JS `String.prototype.split` with separator `'\n'`. -/
def splitNl (s : String) : List String := splitNlAux s.toList []

/-- `parseDebuggingResponse(content, debugType, context)`: splits the
model reply on newlines (`content.split('\n')`) and runs the line loop. -/
def parseDebuggingResponse (content : String) (debugType : String)
    (ctx : ContextData) : AgentResult :=
  parseDebuggingLines (splitNl content) debugType ctx

/-! ## AgentOrchestrator (`src/agents/AgentOrchestrator.ts`) -/

/-- `AgentExecution` (the `ExecutionRecord` of the spec); `timestamp`
abstracts `new Date()`. -/
structure AgentExecution where
  agentType : AgentType
  context : ContextData
  result : AgentResult
  timestamp : Nat
  executionTime : Nat
  success : Bool
  error : Option String := none
deriving DecidableEq

/-! ### AuditTrail

The `AuditTrail` class (imported from `src/core/AuditTrail`; its
implementation appears in the snapshot concatenated into
`src/llm/QwenLLMProvider.ts`) holds an `enabled` flag, initially `true`
and writable through `setEnabled`, and an append-only log file of one
JSON object per line.  `logAgentExecution` appends nothing when disabled;
otherwise it appends one summary entry.  The log file is modelled as the
list of its entries; the ISO timestamp taken at log time is abstracted to
the execution's timestamp. -/

/-- The context summary embedded in each log entry
(`AuditTrail.summarizeContext`). -/
structure ContextSummary where
  currentFile : Option String
  language : Option String
  projectName : Option String
  hasErrorMessages : Bool
deriving DecidableEq

/-- One line of the audit log, as built by
`AuditTrail.logAgentExecution`. -/
structure AuditEntry where
  type : String
  timestamp : Nat
  agentType : AgentType
  executionTime : Nat
  success : Bool
  error : Option String
  contextSummary : ContextSummary
deriving DecidableEq

/-- The `AuditTrail` instance state: the `enabled` flag (initially
`true`) and the entries of the log file. -/
structure AuditState where
  enabled : Bool := true
  log : List AuditEntry := []
deriving DecidableEq

/-- `AuditTrail.summarizeContext`: `hasErrorMessages` is
`Array.isArray(context.errorMessages) && context.errorMessages.length > 0`
(an absent field is not an array). -/
def summarizeContext (ctx : ContextData) : ContextSummary :=
  { currentFile := ctx.currentFile, language := ctx.language,
    projectName := ctx.projectName,
    hasErrorMessages :=
      match ctx.errorMessages with
      | some l => 0 < l.length
      | none => false }

/-- `AuditTrail.logAgentExecution`: `if (!this.enabled) return;` —
nothing is appended while logging is disabled; otherwise one
`agent_execution` summary entry is appended to the log. -/
def logAgentExecution (st : AuditState) (e : AgentExecution) : AuditState :=
  if !st.enabled then st
  else
    { st with log := st.log ++
        [{ type := "agent_execution", timestamp := e.timestamp,
           agentType := e.agentType, executionTime := e.executionTime,
           success := e.success, error := e.error,
           contextSummary := summarizeContext e.context }] }

/-- `AuditTrail.setEnabled`. -/
def setEnabled (st : AuditState) (enabled : Bool) : AuditState :=
  { st with enabled := enabled }

/-- The orchestrator's mutable state (with the audit trail collaborator
it writes to). -/
structure OrchState where
  executionHistory : List AgentExecution := []
  audit : AuditState := {}
  activeAgent : Option AgentType := none
deriving DecidableEq

/-- Result of `validateAgentCapabilities` (which defers to the agent's
`validateContext` when present). -/
structure ValidationResult where
  valid : Bool
  reason : Option String := none
deriving DecidableEq

/-- `AgentOrchestrator.executeAgent`, with the collaborators abstracted
into inputs: `cancelRequested` is the token state at the check,
`validation` is what `validateAgentCapabilities` returns for this agent
and context, `outcome` is what `agent.execute` does (returns or throws),
`now`/`dur` abstract the wall clock.  Every registered `AgentType` has an
agent (`initializeAgents` registers all six), so the `!agent` throw is
unreachable.  The `finally` block only resets `activeAgent`; the history
and audit appends sit on the success and catch paths, after the
cancellation and validation early returns. -/
def executeAgentO (st : OrchState) (agentType : AgentType)
    (ctx : ContextData) (cancelRequested : Bool)
    (validation : ValidationResult) (outcome : BodyOutcome)
    (now dur : Nat) : AgentResult × OrchState :=
  if cancelRequested then
    ({ success := false, error := some "Operation was cancelled",
       agentType := agentType, executionTime := dur },
     { st with activeAgent := none })
  else if !validation.valid then
    ({ success := false, error := validation.reason,
       agentType := agentType, executionTime := dur },
     { st with activeAgent := none })
  else
    match outcome with
    | .returns result =>
      let execution : AgentExecution :=
        { agentType := agentType, context := ctx, result := result,
          timestamp := now, executionTime := dur,
          success := result.success }
      (result,
       { st with
         executionHistory := st.executionHistory ++ [execution],
         audit := logAgentExecution st.audit execution,
         activeAgent := none })
    | .throws msg =>
      let errorResult : AgentResult :=
        { success := false, error := some msg, agentType := agentType,
          executionTime := dur }
      let execution : AgentExecution :=
        { agentType := agentType, context := ctx, result := errorResult,
          timestamp := now, executionTime := dur, success := false,
          error := some msg }
      (errorResult,
       { st with
         executionHistory := st.executionHistory ++ [execution],
         audit := logAgentExecution st.audit execution,
         activeAgent := none })

/-- `AgentOrchestrator.executeAgentChain`, parameterised by the behaviour
of `executeAgent` (`step`, a total function: `executeAgent` never throws).
Besides the returned result list, the model also returns the trace of
agent types actually dispatched, so that "an agent was never invoked" is
expressible.  Mirrors the loop: stop before a step if cancellation is
requested, push every obtained result, merge `contextUpdates` of a
successful result into the running context, stop after a failure. -/
def executeAgentChain (step : AgentType → ContextData → AgentResult)
    (cancelRequested : Bool) :
    List AgentType → ContextData → List AgentResult × List AgentType
  | [], _ => ([], [])
  | agentType :: rest, currentContext =>
    if cancelRequested then ([], [])
    else
      let result := step agentType currentContext
      if result.success then
        let nextContext :=
          match result.contextUpdates with
          | some u => mergeContext currentContext u
          | none => currentContext
        let (rs, inv) := executeAgentChain step cancelRequested rest nextContext
        (result :: rs, agentType :: inv)
      else ([result], [agentType])

/-- One ranked suggestion. -/
structure AgentSuggestion where
  agentType : AgentType
  confidence : Rat
  reasoning : String
deriving DecidableEq

/-- `(o?.length || 0)` for an optional list field. -/
def optLen {α : Type} (o : Option (List α)) : Nat :=
  match o with
  | some l => l.length
  | none => 0

/-- `!(context.surroundingCode?.includes('/**'))`: absent code counts as
"no doc comment". -/
def lacksDocComment (o : Option String) : Bool :=
  !(match o with
    | some s => containsS s "/**"
    | none => false)

/-- The per-agent scoring block of
`AgentOrchestrator.getAllAgentSuggestions`: each agent type accumulates
weighted boolean checks into a confidence and concatenates the fired
rationale fragments (trimmed at the end). -/
def suggestionFor (ctx : ContextData) : AgentType → AgentSuggestion
  | .architect =>
    let (c, r) := ((0 : Rat), "")
    let (c, r) :=
      if truthy ctx.isArchitecturalFile then
        (c + 0.4, r ++ "Architectural file detected. ") else (c, r)
    let (c, r) :=
      if optLen ctx.architecturalPatterns = 0 &&
         10 < (match ctx.projectStructure with
               | some ps => ps.files.length
               | none => 0) then
        (c + 0.3, r ++ "Large project without clear architecture. ")
      else (c, r)
    let (c, r) :=
      if 15 < ctx.complexity.getD 0 then
        (c + 0.2, r ++ "High complexity suggests architectural review needed. ")
      else (c, r)
    ⟨.architect, c, trimS r⟩
  | .codesmith =>
    let (c, r) := ((0 : Rat), "")
    let (c, r) :=
      if truthyS ctx.selectedText then
        (c + 0.3, r ++ "Code selection suggests generation/modification need. ")
      else (c, r)
    let (c, r) :=
      if !truthy ctx.hasErrors && !truthy ctx.hasWarnings then
        (c + 0.2, r ++ "Clean code base ready for enhancement. ") else (c, r)
    let (c, r) :=
      if truthyS ctx.currentFunction then
        (c + 0.2, r ++ "Function context available for targeted code generation. ")
      else (c, r)
    ⟨.codesmith, c, trimS r⟩
  | .bughunter =>
    let (c, r) := ((0 : Rat), "")
    let (c, r) :=
      if truthy ctx.hasErrors then
        (c + 0.5, r ++ "Compilation errors detected. ") else (c, r)
    let (c, r) :=
      if truthy ctx.hasWarnings then
        (c + 0.3, r ++ "Warnings present that need attention. ") else (c, r)
    let (c, r) :=
      if 20 < ctx.complexity.getD 0 then
        (c + 0.2, r ++ "Very high complexity may indicate bugs. ") else (c, r)
    ⟨.bughunter, c, trimS r⟩
  | .docguru =>
    let (c, r) := ((0 : Rat), "")
    let (c, r) :=
      if truthy ctx.missingDocumentation then
        (c + 0.4, r ++ "Missing documentation detected. ") else (c, r)
    let (c, r) :=
      if truthyS ctx.currentFunction && lacksDocComment ctx.surroundingCode then
        (c + 0.3, r ++ "Function lacks proper documentation. ") else (c, r)
    let (c, r) :=
      if truthyS ctx.currentClass && lacksDocComment ctx.surroundingCode then
        (c + 0.3, r ++ "Class lacks proper documentation. ") else (c, r)
    ⟨.docguru, c, trimS r⟩
  | .gitmate =>
    let (c, r) := ((0 : Rat), "")
    let (c, r) :=
      if truthy ctx.hasGitChanges then
        (c + 0.4, r ++ "Uncommitted changes detected. ") else (c, r)
    let (c, r) :=
      if 5 < (match ctx.gitHistory with
              | some g => g.uncommittedChanges.length
              | none => 0) then
        (c + 0.3, r ++ "Many uncommitted files suggest need for git management. ")
      else (c, r)
    let (c, r) :=
      if (match ctx.gitHistory with
          | some g => g.recentCommits.length
          | none => 0) = 0 then
        (c + 0.2, r ++ "No recent commits, may need git workflow setup. ")
      else (c, r)
    ⟨.gitmate, c, trimS r⟩
  | .devflow =>
    let (c, r) := ((0 : Rat), "")
    let (c, r) :=
      if truthy ctx.isConfigFile then
        (c + 0.4, r ++ "Configuration file context suggests workflow setup. ")
      else (c, r)
    let (c, r) :=
      if optLen ctx.configFiles = 0 then
        (c + 0.3, r ++ "Missing configuration files. ") else (c, r)
    let (c, r) :=
      if !(match ctx.configFiles with
           | some fs => fs.any (fun f => f.type = "ci/cd")
           | none => false) then
        (c + 0.2, r ++ "No CI/CD configuration detected. ") else (c, r)
    ⟨.devflow, c, trimS r⟩

/-- For the ranking property: does at least one of the agent type's
scoring rules fire on this context?  Each disjunct is the guard of the
corresponding `confidence +=` in `getAllAgentSuggestions`. -/
def suggestionRuleFires (ctx : ContextData) : AgentType → Bool
  | .architect =>
    truthy ctx.isArchitecturalFile ||
    (optLen ctx.architecturalPatterns = 0 &&
     10 < (match ctx.projectStructure with
           | some ps => ps.files.length
           | none => 0)) ||
    15 < ctx.complexity.getD 0
  | .codesmith =>
    truthyS ctx.selectedText ||
    (!truthy ctx.hasErrors && !truthy ctx.hasWarnings) ||
    truthyS ctx.currentFunction
  | .bughunter =>
    truthy ctx.hasErrors || truthy ctx.hasWarnings ||
    20 < ctx.complexity.getD 0
  | .docguru =>
    truthy ctx.missingDocumentation ||
    (truthyS ctx.currentFunction && lacksDocComment ctx.surroundingCode) ||
    (truthyS ctx.currentClass && lacksDocComment ctx.surroundingCode)
  | .gitmate =>
    truthy ctx.hasGitChanges ||
    5 < (match ctx.gitHistory with
         | some g => g.uncommittedChanges.length
         | none => 0) ||
    (match ctx.gitHistory with
     | some g => g.recentCommits.length
     | none => 0) = 0
  | .devflow =>
    truthy ctx.isConfigFile || optLen ctx.configFiles = 0 ||
    !(match ctx.configFiles with
      | some fs => fs.any (fun f => f.type = "ci/cd")
      | none => false)

/-- Stable insertion step for the descending sort
`suggestions.sort((a, b) => b.confidence - a.confidence)`. -/
def insertDesc (x : AgentSuggestion) :
    List AgentSuggestion → List AgentSuggestion
  | [] => [x]
  | y :: ys =>
    if x.confidence < y.confidence then y :: insertDesc x ys
    else x :: y :: ys

/-- Stable descending sort by confidence. -/
def sortByConfidenceDesc (l : List AgentSuggestion) : List AgentSuggestion :=
  l.foldr insertDesc []

/-- `getAllAgentSuggestions`: the six blocks in source order, sorted by
descending confidence. -/
def getAllAgentSuggestions (ctx : ContextData) : List AgentSuggestion :=
  sortByConfidenceDesc
    ([AgentType.architect, .codesmith, .bughunter, .docguru, .gitmate,
      .devflow].map (suggestionFor ctx))

/-- `suggestAgent`: `reduce` keeping the first suggestion attaining the
maximal confidence. -/
def suggestAgent (ctx : ContextData) : AgentSuggestion :=
  match getAllAgentSuggestions ctx with
  | [] => ⟨.architect, 0, ""⟩
  | h :: t =>
    t.foldl (fun best current =>
      if best.confidence < current.confidence then current else best) h

/-! # Theorems -/

/-- A successful placeholder result, used as a concrete body outcome. -/
def okResult : AgentResult :=
  { success := true, agentType := .bughunter, executionTime := 0 }

/-- C8, counterexample.  The claim says every call to `execute` updates
the rolling average as `(oldAverage * (n-1) + newDuration) / n`; but on
the exception path the code only increments `errorCount` and leaves the
average untouched.  Concretely: from one prior success with average 100, a
throwing call of duration 50 leaves the average at 100, not at
`(100 * (2-1) + 50) / 2 = 75`. -/
theorem executeStep_error_path_average_unchanged :
    ((executeStep { successCount := 1, errorCount := 0,
                    averageExecutionTime := 100 }
        (.throws "boom") 0 50).2.averageExecutionTime = 100) ∧
    ¬((executeStep { successCount := 1, errorCount := 0,
                     averageExecutionTime := 100 }
        (.throws "boom") 0 50).2.averageExecutionTime =
      (100 * ((2 : Rat) - 1) + 50) / 2) := by
  constructor
  · rfl
  · norm_num [executeStep]

/-- C8, amended.  `execute` clears `isExecuting` on every exit path and
increments exactly one of the two counters; the rolling average is
recomputed as `(oldAverage * (n-1) + duration) / n` (with `n` the new
total execution count) on the success path only — the exception path
leaves it unchanged. -/
theorem executeStep_status_update_characterization (st : AgentStatus)
    (outcome : BodyOutcome) (startTime dur : Nat) :
    (executeStep st outcome startTime dur).2.isExecuting = false ∧
    (executeStep st outcome startTime dur).2.successCount =
      st.successCount +
        (match outcome with | .returns _ => 1 | .throws _ => 0) ∧
    (executeStep st outcome startTime dur).2.errorCount =
      st.errorCount +
        (match outcome with | .returns _ => 0 | .throws _ => 1) ∧
    (executeStep st outcome startTime dur).2.averageExecutionTime =
      (match outcome with
       | .returns _ =>
         (st.averageExecutionTime *
            (((st.successCount : Rat) + 1 + (st.errorCount : Rat)) - 1) +
           (dur : Rat)) /
         ((st.successCount : Rat) + 1 + (st.errorCount : Rat))
       | .throws _ => st.averageExecutionTime) := by
  cases outcome with
  | returns r =>
    refine ⟨rfl, rfl, rfl, ?_⟩
    simp only [executeStep, updateAverageExecutionTime]
    push_cast
    ring_nf
  | throws msg => exact ⟨rfl, rfl, rfl, rfl⟩

/-- C1, counterexample.  The claim says every call to `executeAgent`
appends exactly one `ExecutionRecord` to the history and the audit trail,
whatever the outcome.  But the cancellation check and the validation
check return early, before the appends: a cancelled call and a
validation-rejected call leave both lists empty. -/
theorem executeAgent_cancelled_appends_nothing :
    ((executeAgentO {} .bughunter {} true ⟨true, none⟩
        (.returns okResult) 0 5).2.executionHistory.length = 0) ∧
    ((executeAgentO {} .bughunter {} true ⟨true, none⟩
        (.returns okResult) 0 5).2.audit.log.length = 0) ∧
    ((executeAgentO {} .bughunter {} false ⟨false, some "no file"⟩
        (.returns okResult) 0 5).2.executionHistory.length = 0) ∧
    ((executeAgentO {} .bughunter {} false ⟨false, some "no file"⟩
        (.returns okResult) 0 5).2.audit.log.length = 0) := by
  exact ⟨rfl, rfl, rfl, rfl⟩

/-- C1, amended.  `executeAgent` appends exactly one record to the
history on the dispatch paths (agent executed, whether it returned or
threw) and none on the early-return cancellation and
validation-rejection paths; the audit trail gains one entry on the
dispatch paths while audit logging is enabled and none while it is
disabled (`AuditTrail.logAgentExecution` returns early when
`setEnabled(false)` was called).  The appends are inline on the dispatch
paths (the `finally` block only clears the active agent, which is `none`
after every call), and the history is extended append-only. -/
theorem executeAgent_record_append_characterization (st : OrchState)
    (agentType : AgentType) (ctx : ContextData) (cancelRequested : Bool)
    (validation : ValidationResult) (outcome : BodyOutcome) (now dur : Nat) :
    (executeAgentO st agentType ctx cancelRequested validation outcome
        now dur).2.executionHistory.length =
      st.executionHistory.length +
        (if cancelRequested || !validation.valid then 0 else 1) ∧
    (executeAgentO st agentType ctx cancelRequested validation outcome
        now dur).2.audit.log.length =
      st.audit.log.length +
        (if cancelRequested || !validation.valid then 0
         else if st.audit.enabled then 1 else 0) ∧
    (executeAgentO st agentType ctx cancelRequested validation outcome
        now dur).2.audit.enabled = st.audit.enabled ∧
    (executeAgentO st agentType ctx cancelRequested validation outcome
        now dur).2.executionHistory.take st.executionHistory.length =
      st.executionHistory ∧
    (executeAgentO st agentType ctx cancelRequested validation outcome
        now dur).2.activeAgent = none := by
  cases hc : cancelRequested with
  | true => simp [executeAgentO]
  | false =>
    cases hv : validation.valid with
    | false => simp [executeAgentO, hv]
    | true =>
      cases outcome with
      | returns r =>
        cases he : st.audit.enabled <;>
          simp [executeAgentO, hv, logAgentExecution, he]
      | throws msg =>
        cases he : st.audit.enabled <;>
          simp [executeAgentO, hv, logAgentExecution, he]

/-- C6.  A chain `[A, B]` in which `A` fails returns exactly `A`'s failed
result and never dispatches `B`: the invocation trace is `[A]`. -/
theorem executeAgentChain_stops_after_failure
    (step : AgentType → ContextData → AgentResult) (ctx : ContextData)
    (a b : AgentType) (h : (step a ctx).success = false) :
    executeAgentChain step false [a, b] ctx = ([step a ctx], [a]) := by
  simp [executeAgentChain, h]

/-- A concrete always-failing `executeAgent` behaviour. -/
def failStep : AgentType → ContextData → AgentResult := fun t _ =>
  { success := false, agentType := t, executionTime := 3,
    error := some "model unavailable" }

/-- C6, witness: the chain `[bughunter, docguru]` under the failing step
behaviour returns the single failed result and the trace `[bughunter]`. -/
theorem executeAgentChain_stops_after_failure_witness :
    (failStep .bughunter {}).success = false ∧
    executeAgentChain failStep false [.bughunter, .docguru] {} =
      ([failStep .bughunter {}], [.bughunter]) :=
  ⟨rfl, executeAgentChain_stops_after_failure failStep {} .bughunter
     .docguru rfl⟩

/-- A marker-free line leaves the parse accumulator at its initial value:
no branch of the line loop fires (the description branch needs an open
issue, and the initial record has the falsy empty title). -/
theorem parseLine_markerFree (dt : String) (ctx : ContextData) (l : String)
    (h1 : isIssueMarkerLine (trimS l) = false)
    (h2 : isFixMarkerLine (trimS l) = false)
    (h3 : isFenceLine (trimS l) = false) :
    parseLine dt ctx {} l = {} := by
  simp [parseLine, h1, h2, h3]

/-- C5, amended.  On a reply none of whose lines carries a recognized
marker (issue/bug/problem, fix/solution, or a code fence), the parser
still succeeds with empty analysis results, code changes and suggestions —
but the message is the fixed zero-count summary, not the original reply
text. -/
theorem parseDebuggingLines_no_markers_degrades_gracefully
    (lines : List String) (dt : String) (ctx : ContextData)
    (h : ∀ l ∈ lines, isIssueMarkerLine (trimS l) = false ∧
         isFixMarkerLine (trimS l) = false ∧ isFenceLine (trimS l) = false) :
    (parseDebuggingLines lines dt ctx).success = true ∧
    (parseDebuggingLines lines dt ctx).analysisResults = some [] ∧
    (parseDebuggingLines lines dt ctx).codeChanges = some [] ∧
    (parseDebuggingLines lines dt ctx).suggestions = some [] ∧
    (parseDebuggingLines lines dt ctx).message =
      some "Debugging analysis complete. Found 0 issues and 0 potential fixes." := by
  have hacc : lines.foldl (parseLine dt ctx) {} = {} := by
    induction lines with
    | nil => rfl
    | cons l ls ih =>
      have hl := h l (List.mem_cons_self l ls)
      rw [List.foldl_cons, parseLine_markerFree dt ctx l hl.1 hl.2.1 hl.2.2]
      exact ih (fun x hx => h x (List.mem_cons_of_mem l hx))
  refine ⟨rfl, ?_, ?_, ?_, ?_⟩ <;>
    · simp only [parseDebuggingLines, hacc]
      try rfl

/-- C5, witness for the amended no-marker degradation on a concrete
marker-free reply. -/
theorem parseDebuggingLines_no_markers_degrades_gracefully_witness :
    (∀ l ∈ ["hello world", "no structure here"],
      isIssueMarkerLine (trimS l) = false ∧
      isFixMarkerLine (trimS l) = false ∧ isFenceLine (trimS l) = false) ∧
    (parseDebuggingLines ["hello world", "no structure here"] "general"
        {}).success = true ∧
    (parseDebuggingLines ["hello world", "no structure here"] "general"
        {}).analysisResults = some [] ∧
    (parseDebuggingLines ["hello world", "no structure here"] "general"
        {}).suggestions = some [] :=
  ⟨by decide,
   (parseDebuggingLines_no_markers_degrades_gracefully
      ["hello world", "no structure here"] "general" {} (by decide)).1,
   (parseDebuggingLines_no_markers_degrades_gracefully
      ["hello world", "no structure here"] "general" {} (by decide)).2.1,
   (parseDebuggingLines_no_markers_degrades_gracefully
      ["hello world", "no structure here"] "general" {} (by decide)).2.2.2.1⟩

/-- C5, counterexample.  The claim preserves the full reply as the
message; the code instead emits the fixed summary string.  For the
marker-free reply `"hello world"` the message is the summary, not the
reply. -/
theorem parseDebuggingResponse_message_not_full_reply :
    ((parseDebuggingResponse "hello world" "general" {}).message =
      some "Debugging analysis complete. Found 0 issues and 0 potential fixes.") ∧
    ¬((parseDebuggingResponse "hello world" "general" {}).message =
      some "hello world") := by
  constructor
  · rfl
  · decide

/-- C2, counterexample.  The claim expects a `"Suggestion: Y"` line to
yield the suggestion `"Y"`, but `parseDebuggingResponse` only recognizes
`fix:`/`solution:` as suggestion markers: on the three-line reply
`Issue: X` / description / `Suggestion: Y` the suggestions array is
empty. -/
theorem parseDebuggingResponse_suggestion_marker_not_recognized :
    ((parseDebuggingResponse
        "Issue: X\nThe variable is read before it is assigned\nSuggestion: Y"
        "general" {}).suggestions = some []) ∧
    ¬((parseDebuggingResponse
        "Issue: X\nThe variable is read before it is assigned\nSuggestion: Y"
        "general" {}).suggestions = some ["Y"]) := by
  constructor
  · rfl
  · intro hcontra
    rw [show (parseDebuggingResponse
        "Issue: X\nThe variable is read before it is assigned\nSuggestion: Y"
        "general" {}).suggestions = some [] from rfl] at hcontra
    simp at hcontra

/-- C2, amended.  Replacing the unrecognized `Suggestion:` marker by the
marker the parser does recognize (`Fix:`): a reply of one issue-marker
line, one plain non-empty description line, and one fix-marker line
parses to exactly one analysis result — titled by the stripped marker
line, with the description set to the trimmed second line — and exactly
one suggestion, the stripped fix line. -/
theorem parseDebuggingLines_issue_fix_roundtrip
    (l1 l2 l3 dt : String) (ctx : ContextData)
    (h1 : isIssueMarkerLine (trimS l1) = true)
    (ht : ¬(issueTitle (trimS l1) = ""))
    (h2i : isIssueMarkerLine (trimS l2) = false)
    (h2f : isFixMarkerLine (trimS l2) = false)
    (h2c : isFenceLine (trimS l2) = false)
    (h2e : ¬(trimS l2 = ""))
    (h3i : isIssueMarkerLine (trimS l3) = false)
    (h3f : isFixMarkerLine (trimS l3) = true) :
    (parseDebuggingLines [l1, l2, l3] dt ctx).analysisResults =
      some [⟨mapDebugTypeToCategory dt, determineSeverity (trimS l1),
             issueTitle (trimS l1), some (trimS l2)⟩] ∧
    (parseDebuggingLines [l1, l2, l3] dt ctx).suggestions =
      some [fixText (trimS l3)] := by
  constructor <;>
    simp [parseDebuggingLines, parseLine, h1, ht, h2i, h2f, h2c, h2e,
          h3i, h3f, IssueAcc.toResult]

/-- C2, witness for the amended round-trip on a concrete reply. -/
theorem parseDebuggingLines_issue_fix_roundtrip_witness :
    (parseDebuggingLines
        ["Issue: X", "The variable is read before it is assigned", "Fix: Y"]
        "general" {}).analysisResults =
      some [⟨"general", .info, "X",
             some "The variable is read before it is assigned"⟩] ∧
    (parseDebuggingLines
        ["Issue: X", "The variable is read before it is assigned", "Fix: Y"]
        "general" {}).suggestions = some ["Y"] :=
  parseDebuggingLines_issue_fix_roundtrip
    "Issue: X" "The variable is read before it is assigned" "Fix: Y"
    "general" {} (by decide) (by decide) (by decide) (by decide)
    (by decide) (by decide) (by decide) (by decide)

/-- Helper for the mode-monotonicity of `canProcessContext`: the
`enhanced` and `maximum` paths share their first two checks (excluded
file, sensitive content) verbatim, and `maximum` only adds further ways
to block, so anything `enhanced` blocks `maximum` blocks. -/
theorem canProcessContext_enhanced_blocked_then_maximum_blocked
    (files dirs : List String) (ps : List Nat) (ctx : ContextData)
    (hblocked :
      (canProcessContext ⟨.enhanced, files, dirs, ps⟩ ctx).1 = false) :
    (canProcessContext ⟨.maximum, files, dirs, ps⟩ ctx).1 = false := by
  rcases hcf : ctx.currentFile with _ | f <;>
    rcases hsc : ctx.surroundingCode with _ | code <;>
    simp only [canProcessContext, canProcessContext.canProcessContextMaxChecks,
               hcf, hsc] at hblocked ⊢ <;>
    simp at hblocked ⊢
  · -- currentFile = none, surroundingCode = some code
    split_ifs at hblocked ⊢ <;> simp_all
  · -- currentFile = some f, surroundingCode = none
    rw [show isExcludedFile ⟨.maximum, files, dirs, ps⟩ f =
          isExcludedFile ⟨.enhanced, files, dirs, ps⟩ f from rfl]
    split_ifs at hblocked ⊢ <;> simp_all
  · -- both present
    rw [show isExcludedFile ⟨.maximum, files, dirs, ps⟩ f =
          isExcludedFile ⟨.enhanced, files, dirs, ps⟩ f from rfl]
    split_ifs at hblocked ⊢ <;> simp_all

/-- C3.  `canProcessContext` is monotonically stricter along the mode
order: with the same exclusion lists (and the same pattern states), a
context blocked under a lower-strictness mode is blocked under every
higher-strictness mode.  `standard` blocks nothing, `maximum` runs every
`enhanced` check plus the filename vetoes. -/
theorem canProcessContext_mode_monotone
    (files dirs : List String) (ps : List Nat) (ctx : ContextData)
    (m1 m2 : PrivacyMode) (hle : m1.strictness ≤ m2.strictness)
    (hblocked : (canProcessContext ⟨m1, files, dirs, ps⟩ ctx).1 = false) :
    (canProcessContext ⟨m2, files, dirs, ps⟩ ctx).1 = false := by
  cases m1 with
  | standard => simp [canProcessContext] at hblocked
  | enhanced =>
    cases m2 with
    | standard => simp [PrivacyMode.strictness] at hle
    | enhanced => exact hblocked
    | maximum =>
      exact canProcessContext_enhanced_blocked_then_maximum_blocked
        files dirs ps ctx hblocked
  | maximum =>
    cases m2 with
    | standard => simp [PrivacyMode.strictness] at hle
    | enhanced => simp [PrivacyMode.strictness] at hle
    | maximum => exact hblocked

/-- C3, witness: a context whose current file is on the exclusion list is
blocked under `enhanced` and, by the theorem, under `maximum`. -/
theorem canProcessContext_mode_monotone_witness :
    PrivacyMode.strictness .enhanced ≤ PrivacyMode.strictness .maximum ∧
    (canProcessContext ⟨.enhanced, ["src/keys.txt"], [],
        List.replicate 10 0⟩ { currentFile := some "src/keys.txt" }).1 =
      false ∧
    (canProcessContext ⟨.maximum, ["src/keys.txt"], [],
        List.replicate 10 0⟩ { currentFile := some "src/keys.txt" }).1 =
      false :=
  ⟨by decide, by decide,
   canProcessContext_mode_monotone ["src/keys.txt"] [] (List.replicate 10 0)
     { currentFile := some "src/keys.txt" } .enhanced .maximum (by decide)
     (by decide)⟩

/-- C9.  On any context with compiler errors flagged, the bughunter block
scores at least 0.5, while an agent type none of whose scoring rules fire
scores exactly 0: the bughunter agent is ranked strictly above every such
agent.  (The claim's scenario — `hasErrors=true`, every other signal
absent or false — is an instance.) -/
theorem bughunter_outranks_silent_agents_on_errors
    (ctx : ContextData) (t : AgentType)
    (he : truthy ctx.hasErrors = true)
    (hq : suggestionRuleFires ctx t = false) :
    (suggestionFor ctx t).confidence <
      (suggestionFor ctx .bughunter).confidence := by
  have hb : (1 : Rat) / 2 ≤ (suggestionFor ctx .bughunter).confidence := by
    simp only [suggestionFor, he]
    split_ifs <;> norm_num
  have hz : (suggestionFor ctx t).confidence = 0 := by
    cases t with
    | architect =>
      simp only [suggestionRuleFires] at hq
      generalize hn : (match ctx.projectStructure with
        | some ps => ps.files.length
        | none => 0) = n at hq
      simp at hq
      obtain ⟨⟨h1, h2⟩, h3⟩ := hq
      have h2' : ¬(optLen ctx.architecturalPatterns = 0 ∧ 10 < (match ctx.projectStructure with
        | some ps => ps.files.length
        | none => 0)) := by
        rw [hn]; rintro ⟨ha, hb2⟩; have := h2 ha; omega
      have h3' : ¬(15 < ctx.complexity.getD 0) := by omega
      simp [suggestionFor, h1, h2', h3']
    | codesmith =>
      simp only [suggestionRuleFires] at hq
      simp [he] at hq
      obtain ⟨h1, h2⟩ := hq
      simp [suggestionFor, he, h1, h2]
    | bughunter =>
      simp [suggestionRuleFires, he] at hq
    | docguru =>
      simp only [suggestionRuleFires] at hq
      simp at hq
      obtain ⟨⟨h1, h2⟩, h3⟩ := hq
      have h2' : ¬(truthyS ctx.currentFunction = true ∧
          lacksDocComment ctx.surroundingCode = true) := by
        rintro ⟨ha, hb2⟩; rw [h2 ha] at hb2; cases hb2
      have h3' : ¬(truthyS ctx.currentClass = true ∧
          lacksDocComment ctx.surroundingCode = true) := by
        rintro ⟨ha, hb2⟩; rw [h3 ha] at hb2; cases hb2
      simp [suggestionFor, h1, h2', h3']
    | gitmate =>
      simp only [suggestionRuleFires] at hq
      generalize hu : (match ctx.gitHistory with
        | some g => g.uncommittedChanges.length
        | none => 0) = u at hq
      generalize hr : (match ctx.gitHistory with
        | some g => g.recentCommits.length
        | none => 0) = r at hq
      simp at hq
      obtain ⟨⟨h1, h2⟩, h3⟩ := hq
      have h2' : ¬(5 < (match ctx.gitHistory with
        | some g => g.uncommittedChanges.length
        | none => 0)) := by rw [hu]; omega
      have h3' : ¬((match ctx.gitHistory with
        | some g => g.recentCommits.length
        | none => 0) = 0) := by rw [hr]; omega
      simp [suggestionFor, h1, h2', h3']
    | devflow =>
      simp only [suggestionRuleFires] at hq
      simp at hq
      obtain ⟨⟨h1, h2⟩, h3⟩ := hq
      simp [suggestionFor, h1, h2, h3]
  rw [hz]
  linarith

/-- C9, witness: on the context with only `hasErrors = true`, none of the
architect rules fire and the bughunter suggestion scores strictly
higher. -/
theorem bughunter_outranks_silent_agents_on_errors_witness :
    truthy ({ hasErrors := some true } : ContextData).hasErrors = true ∧
    suggestionRuleFires { hasErrors := some true } .architect = false ∧
    (suggestionFor { hasErrors := some true } .architect).confidence <
      (suggestionFor { hasErrors := some true } .bughunter).confidence :=
  ⟨by decide, by decide,
   bughunter_outranks_silent_agents_on_errors { hasErrors := some true }
     .architect (by decide) (by decide)⟩

/-- Writing to a freshly allocated cell leaves every previously live cell
unchanged. -/
theorem read_write_fresh (cells : List (List String)) (c xs : List String)
    (i : Nat) (h : i < cells.length) :
    ((cells ++ [c]).set cells.length xs).getD i [] = cells.getD i [] := by
  induction cells generalizing i with
  | nil => exact absurd h (Nat.not_lt_zero i)
  | cons hd tl ih =>
    cases i with
    | zero => rfl
    | succ j =>
      simp only [List.cons_append, List.length_cons, List.set_cons_succ,
                 List.getD_cons_succ]
      exact ih j (by simpa using h)

/-- C10.  `getExcludedFiles` / `getExcludedDirectories` hand out fresh
copies: overwriting the returned array (with any contents) leaves the
manager's own lists unchanged, so every subsequent `canProcessContext` or
`canProcessRequest` evaluation is unaffected. -/
theorem getters_return_fresh_copies
    (pm : PMHeap) (st : Store) (hwf : pm.wf st) (xs ys : List String)
    (ctx : ContextData) (req : RequestData) :
    pm.val ((getExcludedFiles pm st).2.write (getExcludedFiles pm st).1 xs) =
      pm.val st ∧
    pm.val ((getExcludedDirectories pm st).2.write
        (getExcludedDirectories pm st).1 ys) = pm.val st ∧
    canProcessContext
        (pm.val ((getExcludedFiles pm st).2.write
          (getExcludedFiles pm st).1 xs)) ctx =
      canProcessContext (pm.val st) ctx ∧
    canProcessRequest
        (pm.val ((getExcludedFiles pm st).2.write
          (getExcludedFiles pm st).1 xs)) req =
      canProcessRequest (pm.val st) req := by
  have key : ∀ (src : List String) (zs : List String),
      pm.val ((st.alloc src).2.write (st.alloc src).1 zs) = pm.val st := by
    intro src zs
    simp only [PMHeap.val, Store.alloc, Store.write, Store.read]
    rw [read_write_fresh st.cells src zs pm.filesRef hwf.1,
        read_write_fresh st.cells src zs pm.dirsRef hwf.2]
  refine ⟨key _ xs, key _ ys, ?_, ?_⟩ <;> rw [show
    pm.val ((getExcludedFiles pm st).2.write (getExcludedFiles pm st).1 xs) =
      pm.val st from key _ xs]

/-- C10, witness: a concrete two-cell store; clobbering the copy returned
by `getExcludedFiles` does not change the manager's denotation. -/
theorem getters_return_fresh_copies_witness :
    PMHeap.wf ⟨.enhanced, 0, 1, List.replicate 10 0⟩ ⟨[["a.txt"], ["dir/"]]⟩ ∧
    PMHeap.val ⟨.enhanced, 0, 1, List.replicate 10 0⟩
        ((getExcludedFiles ⟨.enhanced, 0, 1, List.replicate 10 0⟩
            ⟨[["a.txt"], ["dir/"]]⟩).2.write
          (getExcludedFiles ⟨.enhanced, 0, 1, List.replicate 10 0⟩
            ⟨[["a.txt"], ["dir/"]]⟩).1 ["clobbered"]) =
      PMHeap.val ⟨.enhanced, 0, 1, List.replicate 10 0⟩
        ⟨[["a.txt"], ["dir/"]]⟩ :=
  ⟨⟨by decide, by decide⟩,
   (getters_return_fresh_copies ⟨.enhanced, 0, 1, List.replicate 10 0⟩
      ⟨[["a.txt"], ["dir/"]]⟩ ⟨by decide, by decide⟩ ["clobbered"] []
      { currentFile := some "a.txt" } {}).1⟩

/-- C4, code bug.  `calculateComplexity` builds
`new RegExp("\\b" + keyword + "\\b", "g")` without escaping regex
metacharacters.  For the keyword `||` the compiled source `\b||\b` is the
alternation of `\b`, the empty pattern and `\b`, which matches the empty
string at every index, so the scorer adds `text.length + 1` for that
keyword instead of the number of `||` occurrences.  On the empty document
the code returns 2, while the specified value — 1 plus zero whole-word
occurrences of every keyword — is 1. -/
theorem calculateComplexity_empty_text_artifact :
    calculateComplexity "" = 2 ∧ specWholeWordComplexity "" = 1 ∧
    ¬(calculateComplexity "" = specWholeWordComplexity "") :=
  ⟨by decide, by decide, by decide⟩

/-- C7, code bug.  The sensitive-data regexes are compiled with the `g`
flag and probed with `RegExp.test`, whose `lastIndex` persists between
calls.  Privacy evaluation is therefore not pure: with the manager in
`enhanced` mode and fresh pattern state, a context whose surrounding code
is one 24-character token is blocked by the generic-API-key pattern on the
first call, but the very same call on the resulting state finds no match
beyond the stale `lastIndex`, resets it, and lets the identical context
through. -/
theorem canProcessContext_not_pure_g_flag_state :
    ((canProcessContext ⟨.enhanced, [], [], List.replicate 10 0⟩
        { surroundingCode := some "abcdefghijklmnopqrstuvwx" }).1 = false) ∧
    ((canProcessContext
        (canProcessContext ⟨.enhanced, [], [], List.replicate 10 0⟩
          { surroundingCode := some "abcdefghijklmnopqrstuvwx" }).2
        { surroundingCode := some "abcdefghijklmnopqrstuvwx" }).1 = true) :=
  ⟨by decide, by decide⟩

end DevMind
